import Mathlib

/-!
Verification development for the KCL compiler orchestrator
(`kclvm/compiler/src/codegen/llvm/module.rs`) and the native runner
(`kclvm/runner/src/runner.rs`).

The Rust sources are shallowly embedded: pure functions become Lean
functions, the interior-mutable compilation state (file-context stack,
global scope) becomes explicit state passing, fallible code returns
`Except`/`Option`, and a Rust panic is a distinguished outcome
constructor.  Machine integers are modelled as `Int`/`Nat` with explicit
`% 2 ^ 64` where a Rust `as usize` cast matters.  Collaborator code that
lives outside the excerpt (the `kclvm_runtime` value library, the
diagnostic handler, the scope primitives in `context.rs`) is modelled
from the spec; each such definition carries a doc comment starting with
`Modelled from the spec:`.
-/

/-- `RESULT_SIZE` from runner.rs: capacity of each output channel buffer. -/
def RESULT_SIZE : Nat := 2048 * 2048

/-- Rust `as usize` on a signed value: reinterpret modulo `2 ^ 64`. -/
def toUsize (i : Int) : Nat := (i % (2 ^ 64)).toNat

/-- Modelled from the spec: the generic value tree produced by
`ValueRef::from_yaml_stream` (in `kclvm_runtime`, outside this excerpt):
"Parse it into a generic value tree." -/
inductive KValue where
  | null
  | bool (b : Bool)
  | int (i : Int)
  | str (s : String)
  | list (elems : List KValue)
  | dict (entries : List (String × KValue))

def isWsChar (c : Char) : Bool := c = ' ' || c = '\n' || c = '\t' || c = '\r'

def skipWs : List Char → List Char
  | [] => []
  | c :: rest => if isWsChar c then skipWs rest else c :: rest

/-- Scan the characters of a quoted string up to the closing quote
(escape sequences are not modelled; no claim depends on them). -/
def parseStrChars : List Char → Option (List Char × List Char)
  | [] => none
  | c :: rest =>
    if c = '"' then some ([], rest)
    else
      match parseStrChars rest with
      | some (cs, r) => some (c :: cs, r)
      | none => none

def parseDigits : List Char → List Char × List Char
  | [] => ([], [])
  | c :: rest =>
    if c.isDigit then
      let r := parseDigits rest
      (c :: r.1, r.2)
    else ([], c :: rest)

def digitsToNat (ds : List Char) : Nat :=
  ds.foldl (fun acc c => acc * 10 + (c.toNat - 48)) 0

def expectChars : List Char → List Char → Option (List Char)
  | [], input => some input
  | e :: es, input =>
    match input with
    | c :: rest => if c = e then expectChars es rest else none
    | [] => none

/-- Modelled from the spec: the document parser behind
`ValueRef::from_yaml_stream`, "treat YAML as a superset of JSON for
parsing purposes".  A fuel-indexed recursive-descent parser for the JSON
subset (objects, arrays, strings, integers, booleans, null); the fuel is
structural so everything evaluates by `decide`/`rfl`.  Level `fuel + 1`
is built from the three parsers of level `fuel`: value parser, object
entries parser (after the opening brace), array elements parser (after
the opening bracket). -/
def parsers : Nat →
    ((List Char → Option (KValue × List Char)) ×
     (List Char → Option (List (String × KValue) × List Char)) ×
     (List Char → Option (List KValue × List Char)))
  | 0 => (fun _ => none, fun _ => none, fun _ => none)
  | fuel + 1 =>
    let pv := (parsers fuel).1
    let pe := (parsers fuel).2.1
    let pl := (parsers fuel).2.2
    ( fun input =>
        match skipWs input with
        | [] => none
        | c :: rest =>
          if c = '\x7b' then
            match skipWs rest with
            | c2 :: r2 =>
              if c2 = '\x7d' then some (KValue.dict [], r2) else
                match pe (c2 :: r2) with
                | some (es, r3) => some (KValue.dict es, r3)
                | none => none
            | [] => none
          else if c = '[' then
            match skipWs rest with
            | c2 :: r2 =>
              if c2 = ']' then some (KValue.list [], r2) else
                match pl (c2 :: r2) with
                | some (vs, r3) => some (KValue.list vs, r3)
                | none => none
            | [] => none
          else if c = '"' then
            match parseStrChars rest with
            | some (cs, r) => some (KValue.str (String.mk cs), r)
            | none => none
          else if c = 't' then
            match expectChars ['r', 'u', 'e'] rest with
            | some r => some (KValue.bool true, r)
            | none => none
          else if c = 'f' then
            match expectChars ['a', 'l', 's', 'e'] rest with
            | some r => some (KValue.bool false, r)
            | none => none
          else if c = 'n' then
            match expectChars ['u', 'l', 'l'] rest with
            | some r => some (KValue.null, r)
            | none => none
          else if c = '-' then
            match rest with
            | d :: ds =>
              if d.isDigit then
                let pr := parseDigits (d :: ds)
                some (KValue.int (-(Int.ofNat (digitsToNat pr.1))), pr.2)
              else none
            | [] => none
          else if c.isDigit then
            let pr := parseDigits (c :: rest)
            some (KValue.int (Int.ofNat (digitsToNat pr.1)), pr.2)
          else none,
      fun input =>
        match skipWs input with
        | '"' :: rest =>
          match parseStrChars rest with
          | some (keyChars, r1) =>
            match skipWs r1 with
            | ':' :: r2 =>
              match pv r2 with
              | some (v, r3) =>
                match skipWs r3 with
                | ',' :: r4 =>
                  match pe r4 with
                  | some (es, r5) => some ((String.mk keyChars, v) :: es, r5)
                  | none => none
                | c5 :: r4 =>
                  if c5 = '\x7d' then some ([(String.mk keyChars, v)], r4)
                  else none
                | [] => none
              | none => none
            | _ => none
          | none => none
        | _ => none,
      fun input =>
        match pv input with
        | some (v, r1) =>
          match skipWs r1 with
          | ',' :: r2 =>
            match pl r2 with
            | some (vs, r3) => some (v :: vs, r3)
            | none => none
          | ']' :: r2 => some ([v], r2)
          | _ => none
        | none => none )

/-- Modelled from the spec: `ValueRef::from_yaml_stream` (kclvm_runtime,
outside this excerpt) — parse the text as one document of the
YAML-compatible (JSON-subset) grammar; trailing whitespace is allowed.
Streams of several documents are not modelled; no claim depends on
them. -/
def from_yaml_stream (msg : String) : Except String KValue :=
  match (parsers (msg.length + 1)).1 msg.data with
  | some (v, rest) =>
    match skipWs rest with
    | [] => Except.ok v
    | _ => Except.error "invalid yaml document"
  | none => Except.error "invalid yaml document"

def lookupEntries : List (String × KValue) → String → Option KValue
  | [], _ => none
  | (k, v) :: rest, key => if k = key then some v else lookupEntries rest key

/-- Modelled from the spec: `ValueRef::get_by_key` — look a key up in the
value tree when it is a mapping ("if the value tree contains the key"). -/
def KValue.get_by_key : KValue → String → Option KValue
  | KValue.dict entries, key => lookupEntries entries key
  | _, _ => none

/-- Modelled from the spec: `ValueRef::is_truthy` — "that marker's value
is truthy": null and false are falsy, numbers are truthy iff nonzero,
strings/collections iff nonempty. -/
def KValue.is_truthy : KValue → Bool
  | KValue.null => false
  | KValue.bool b => b
  | KValue.int i => i != 0
  | KValue.str s => !s.isEmpty
  | KValue.list xs => !xs.isEmpty
  | KValue.dict es => !es.isEmpty

/-- From runner.rs `wrap_msg_in_result`: parse the raw result text; a
parse failure is an error, a document whose `__kcl_PanicInfo__` key is
truthy makes the whole raw text the error, otherwise the raw text is the
successful result. -/
def wrap_msg_in_result (msg : String) : Except String String :=
  match from_yaml_stream msg with
  | Except.error err => Except.error err
  | Except.ok kcl_val =>
    match kcl_val.get_by_key "__kcl_PanicInfo__" with
    | some val => if val.is_truthy then Except.error msg else Except.ok msg
    | none => Except.ok msg

/-- Decode one UTF-8 encoded character from the front of a byte list,
with the strict validation Rust's `str::from_utf8` performs (continuation
ranges, no overlong forms, no surrogates, max U+10FFFF). -/
def utf8DecodeOne : List Nat → Option (Char × List Nat)
  | [] => none
  | b :: rest =>
    if b ≤ 127 then some (Char.ofNat b, rest)
    else if 194 ≤ b ∧ b ≤ 223 then
      match rest with
      | b2 :: r2 =>
        if 128 ≤ b2 ∧ b2 ≤ 191 then
          some (Char.ofNat ((b - 192) * 64 + (b2 - 128)), r2)
        else none
      | [] => none
    else if b = 224 then
      match rest with
      | b2 :: b3 :: r3 =>
        if (160 ≤ b2 ∧ b2 ≤ 191) ∧ (128 ≤ b3 ∧ b3 ≤ 191) then
          some (Char.ofNat ((b - 224) * 4096 + (b2 - 128) * 64 + (b3 - 128)), r3)
        else none
      | _ => none
    else if (225 ≤ b ∧ b ≤ 236) ∨ (238 ≤ b ∧ b ≤ 239) then
      match rest with
      | b2 :: b3 :: r3 =>
        if (128 ≤ b2 ∧ b2 ≤ 191) ∧ (128 ≤ b3 ∧ b3 ≤ 191) then
          some (Char.ofNat ((b - 224) * 4096 + (b2 - 128) * 64 + (b3 - 128)), r3)
        else none
      | _ => none
    else if b = 237 then
      match rest with
      | b2 :: b3 :: r3 =>
        if (128 ≤ b2 ∧ b2 ≤ 159) ∧ (128 ≤ b3 ∧ b3 ≤ 191) then
          some (Char.ofNat ((b - 224) * 4096 + (b2 - 128) * 64 + (b3 - 128)), r3)
        else none
      | _ => none
    else if b = 240 then
      match rest with
      | b2 :: b3 :: b4 :: r4 =>
        if (144 ≤ b2 ∧ b2 ≤ 191) ∧ (128 ≤ b3 ∧ b3 ≤ 191) ∧ (128 ≤ b4 ∧ b4 ≤ 191) then
          some (Char.ofNat ((b - 240) * 262144 + (b2 - 128) * 4096 + (b3 - 128) * 64 + (b4 - 128)), r4)
        else none
      | _ => none
    else if 241 ≤ b ∧ b ≤ 243 then
      match rest with
      | b2 :: b3 :: b4 :: r4 =>
        if (128 ≤ b2 ∧ b2 ≤ 191) ∧ (128 ≤ b3 ∧ b3 ≤ 191) ∧ (128 ≤ b4 ∧ b4 ≤ 191) then
          some (Char.ofNat ((b - 240) * 262144 + (b2 - 128) * 4096 + (b3 - 128) * 64 + (b4 - 128)), r4)
        else none
      | _ => none
    else if b = 244 then
      match rest with
      | b2 :: b3 :: b4 :: r4 =>
        if (128 ≤ b2 ∧ b2 ≤ 143) ∧ (128 ≤ b3 ∧ b3 ≤ 191) ∧ (128 ≤ b4 ∧ b4 ≤ 191) then
          some (Char.ofNat ((b - 240) * 262144 + (b2 - 128) * 4096 + (b3 - 128) * 64 + (b4 - 128)), r4)
        else none
      | _ => none
    else none

/-- UTF-8 validation and decoding of a whole byte list; the fuel is the
byte count (each character consumes at least one byte) and is structural
so concrete runs evaluate by `rfl`. -/
def utf8DecodeAux : Nat → List Nat → Option (List Char)
  | _, [] => some []
  | 0, _ :: _ => none
  | fuel + 1, b :: rest =>
    match utf8DecodeOne (b :: rest) with
    | none => none
    | some (c, r2) =>
      match utf8DecodeAux fuel r2 with
      | some cs => some (c :: cs)
      | none => none

/-- Rust `String::from_utf8` / `str::from_utf8`: validate and decode.
"All byte-to-text conversions must validate UTF-8." -/
def utf8Decode (bs : List Nat) : Option String :=
  match utf8DecodeAux bs.length bs with
  | some cs => some (String.mk cs)
  | none => none

/-- `ExecProgramResult` from runner.rs: the decoded outcome of one run. -/
structure ExecProgramResult where
  json_result : String := ""
  yaml_result : String := ""
  log_message : String := ""
  err_message : String := ""
deriving Repr, DecidableEq

/-- Modelled from the spec: the diagnostic-formatting collaborator
(`Handler`/`PanicInfo` in `kclvm_error`/`kclvm_runtime`, outside this
excerpt) — "re-rendered through the diagnostic-formatting collaborator
(treating the raw message as one diagnostic)", producing a human-readable
diagnostic form that carries the raw message. -/
def renderDiagnostic (msg : String) : String := "error: " ++ msg

/-- Outcome of `KclLibRunner::lib_kcl_run` as seen by a caller: a normal
return, an error propagated by the question-mark operator, or a Rust
panic (slice bounds check). -/
inductive RunOutcome where
  | ok (result : ExecProgramResult)
  | err (msg : String)
  | panics (msg : String)
deriving Repr, DecidableEq

/-- Rust slice indexing `buf[0 .. len as usize]`: bounds-checked take; a
length beyond the buffer is a panic, modelled as `none`. -/
def sliceBuf (buf : List Nat) (len : Int) : Option (List Nat) :=
  if toUsize len ≤ buf.length then some (buf.take (toUsize len)) else none

/-- The pure decode stage of `KclLibRunner::lib_kcl_run` (runner.rs lines
395-424), as a function of the entry point's return code `n`, the three
output buffers, and the value the callee wrote into the log length cell.
The log channel is converted first; `n > 0` slices the result buffer and
runs `wrap_msg_in_result`; `n < 0` slices `-n` bytes of the warning
buffer as the error message; finally a non-empty error message is
re-rendered through the diagnostic formatter. -/
def lib_kcl_run_decode (n : Int) (json_result warn_data log_data : List Nat)
    (log_buffer_len : Int) : RunOutcome :=
  match sliceBuf log_data log_buffer_len with
  | none => RunOutcome.panics "range end index out of range"
  | some logBytes =>
    match utf8Decode logBytes with
    | none => RunOutcome.err "invalid utf-8 sequence"
    | some logMsg =>
      let result0 : ExecProgramResult := { log_message := logMsg }
      let step :=
        if 0 < n then
          match sliceBuf json_result n with
          | none => RunOutcome.panics "range end index out of range"
          | some resBytes =>
            match utf8Decode resBytes with
            | none => RunOutcome.err "invalid utf-8 sequence"
            | some s =>
              match wrap_msg_in_result s with
              | Except.ok json => RunOutcome.ok { result0 with json_result := json }
              | Except.error e => RunOutcome.ok { result0 with err_message := e }
        else if n < 0 then
          match sliceBuf warn_data (0 - n) with
          | none => RunOutcome.panics "range end index out of range"
          | some wBytes =>
            match utf8Decode wBytes with
            | none => RunOutcome.err "invalid utf-8 sequence"
            | some e => RunOutcome.ok { result0 with err_message := e }
        else RunOutcome.ok result0
      match step with
      | RunOutcome.ok r =>
        if r.err_message = "" then RunOutcome.ok r
        else RunOutcome.ok { r with err_message := renderDiagnostic r.err_message }
      | other => other

/-- ASCII encoding helper used only to build concrete test buffers. -/
def asciiBytes (s : String) : List Nat := s.data.map (fun c => c.toNat)

/-- `ast::CmdExternalPkgSpec`: an external package name/path pair. -/
structure CmdExternalPkgSpec where
  pkg_name : String
  pkg_path : String
deriving Repr, DecidableEq

/-- `ast::CmdArgSpec`: one `-D name=value` option binding. -/
structure CmdArgSpec where
  name : String
  value : String
deriving Repr, DecidableEq

/-- Modelled from the spec: `ast::OverrideSpec` (kclvm_ast, outside this
excerpt) — an override specification; its fields are irrelevant to every
claim, only its presence in the configuration record matters. -/
structure OverrideSpec where
  field_path : String := ""
  field_value : String := ""
deriving Repr, DecidableEq

/-- `ExecProgramArgs` from runner.rs: the execution configuration.  Field
defaults mirror Rust's `Default` derive (empty collections, `false`,
zero); `plugin_agent` is a `u64` function-pointer value, zero meaning "no
plugin". -/
structure ExecProgramArgs where
  work_dir : Option String := none
  k_filename_list : List String := []
  external_pkgs : List CmdExternalPkgSpec := []
  k_code_list : List String := []
  args : List CmdArgSpec := []
  overrides : List OverrideSpec := []
  path_selector : List String := []
  disable_yaml_result : Bool := false
  print_override_ast : Bool := false
  strict_range_check : Bool := false
  disable_none : Bool := false
  verbose : Int := 0
  debug : Int := 0
  sort_keys : Bool := false
  include_schema_type_path : Bool := false
  compile_only : Bool := false
  recursive : Bool := false
  plugin_agent : Nat := 0
deriving Repr, DecidableEq

/-- Rust `char::is_whitespace`, the character class `str::trim` strips:
the Unicode White_Space property — U+0009..U+000D (tab, LF, vertical
tab, form feed, CR), space, U+0085 (NEL), U+00A0 (NBSP), U+1680,
U+2000..U+200A, U+2028, U+2029, U+202F, U+205F and U+3000. -/
def isRustWhitespace (c : Char) : Bool :=
  let n := c.toNat
  (decide (0x9 ≤ n) && decide (n ≤ 0xD)) || decide (n = 0x20) ||
    decide (n = 0x85) || decide (n = 0xA0) || decide (n = 0x1680) ||
    (decide (0x2000 ≤ n) && decide (n ≤ 0x200A)) || decide (n = 0x2028) ||
    decide (n = 0x2029) || decide (n = 0x202F) || decide (n = 0x205F) ||
    decide (n = 0x3000)

/-- Rust `s.trim().is_empty()`: true iff every character has the Unicode
White_Space property that `str::trim` strips. -/
def trimIsEmpty (s : String) : Bool := s.data.all isRustWhitespace

/-- What `ExecProgramArgs::from_str` does with an input: return a value,
or panic (the `.expect(s)` carries the input text as the panic payload). -/
inductive FromStrOutcome where
  | ok (args : ExecProgramArgs)
  | panics (payload : String)
deriving Repr, DecidableEq

/-- From runner.rs `ExecProgramArgs::from_str`: an empty or
whitespace-only string yields the default configuration; otherwise the
text is handed to the JSON deserializer (`serde_json`, an external
collaborator, here a parameter) and a deserialization failure panics via
`.expect(s)` with the input text. -/
def ExecProgramArgs.from_str (parseJson : String → Option ExecProgramArgs)
    (s : String) : FromStrOutcome :=
  if trimIsEmpty s then FromStrOutcome.ok {}
  else
    match parseJson s with
    | some args => FromStrOutcome.ok args
    | none => FromStrOutcome.panics s

/-- A path is in canonical (absolute) form when it starts at the
filesystem root. -/
def isAbsolutePath (p : String) : Bool :=
  match p.data with
  | c :: _ => c == '/'
  | [] => false

/-- Modelled from the spec: `std::path::Path::canonicalize` — resolve a
path against the working directory into an absolute form, "so
relative-path execution is independent of the caller's working
directory" (existence checking and symlink resolution are not
modelled). -/
def canonicalizePath (cwd path : String) : String :=
  if isAbsolutePath path then path else cwd ++ "/" ++ path

/-- Modelled from the spec: `libloading::Library::new` — open a native
library, failing with a load error "when the path does not resolve to a
loadable native library"; which targets are loadable is a parameter. -/
def libraryNew (loadable : String → Bool) (arg : String) : Except String Unit :=
  if loadable arg then Except.ok () else Except.error ("failed to load " ++ arg)

/-- From runner.rs `Artifact::from_path`: the argument handed to
`libloading::Library::new` — the caller's path, unchanged. -/
def Artifact.from_path_loadArg (path : String) : String := path

/-- From runner.rs `Artifact::from_path`: `Library::new(path)?` wrapped
into the artifact. -/
def Artifact.from_path_open (loadable : String → Bool) (path : String) :
    Except String Unit :=
  libraryNew loadable (Artifact.from_path_loadArg path)

/-- From runner.rs `KclLibRunner::run`: the argument handed to
`Library::new` — `PathBuf::from(lib_path).canonicalize()?`, with the
ambient working directory made explicit. -/
def KclLibRunner.run_loadArg (cwd lib_path : String) : String :=
  canonicalizePath cwd lib_path

/-- From runner.rs `KclLibRunner::run`: open the canonicalized library
path. -/
def KclLibRunner.run_open (loadable : String → Bool) (cwd lib_path : String) :
    Except String Unit :=
  libraryNew loadable (KclLibRunner.run_loadArg cwd lib_path)

/-- `ast::Identifier` (only its `names` component matters here): a
possibly dotted / multi-part target name. -/
structure Identifier where
  names : List String

/-- The statement variants of `ast::Stmt` relevant to module.rs; every
other statement kind is the pass-through `other`.  Schema definitions
keep their body so that "not recursed into" is expressible. -/
inductive Stmt where
  | importStmt (path : String)
  | schema (name : String) (body : List Stmt)
  | rule (name : String)
  | assign (targets : List Identifier)
  | unification (target : Identifier)
  | ifStmt (body : List Stmt) (orelse : List Stmt)
  | other

/-- `ast::Module`: a filename plus a statement list (named `AstModule`
because `Module` is taken by Mathlib). -/
structure AstModule where
  filename : String
  body : List Stmt

/-- A value stored in a global storage location; the scan passes only
ever store `undefined`. -/
inductive GValue where
  | undefined
  | value (n : Nat)
deriving Repr, DecidableEq

/-- `self.undefined_value()` from the code-generation context. -/
def undefined_value : GValue := GValue.undefined

/-- The global scope of one compilation run: name-to-storage-location
bindings, the heap of storage locations, and the next fresh location. -/
structure Scope where
  vars : List (String × Nat)
  store : Nat → GValue
  nextPtr : Nat

def lookupAssoc : List (String × Nat) → String → Option Nat
  | [], _ => none
  | (k, v) :: rest, n => if k = n then some v else lookupAssoc rest n

/-- Modelled from the spec: `LLVMCodeGenContext::store_variable`
(context.rs, outside this excerpt) — "if it is already present, leave
the existing storage location and overwrite only its stored value in
place" and report true; report false without any change when the name is
absent. -/
def store_variable (s : Scope) (name : String) (v : GValue) : Scope × Bool :=
  match lookupAssoc s.vars name with
  | some p => ({ s with store := fun q => if q = p then v else s.store q }, true)
  | none => (s, false)

/-- Modelled from the spec: `new_global_kcl_value_ptr` — "allocate new
storage": a fresh storage location. -/
def new_global_kcl_value_ptr (s : Scope) : Scope × Nat :=
  ({ s with nextPtr := s.nextPtr + 1 }, s.nextPtr)

/-- `builder.build_store(ptr, value)`: write a value into a storage
location. -/
def build_store (s : Scope) (p : Nat) (v : GValue) : Scope :=
  { s with store := fun q => if q = p then v else s.store q }

/-- Modelled from the spec: `add_variable` (context.rs, outside this
excerpt) — "insert a placeholder": bind a name to a storage location in
the current scope. -/
def add_variable (s : Scope) (name : String) (p : Nat) : Scope :=
  { s with vars := (name, p) :: s.vars }

/-- From module.rs `predefine_global_types`: try to store the undefined
value into an existing binding; only when the name is not yet bound,
allocate fresh global storage, store the undefined value there, and add
the binding. -/
def predefine_global_types (s : Scope) (name : String) : Scope :=
  let function := undefined_value
  let res := store_variable s name function
  if res.2 then res.1
  else
    let alloc := new_global_kcl_value_ptr s
    let s1 := build_store alloc.1 alloc.2 function
    add_variable s1 name alloc.2

/-- Modelled from the spec: `add_or_update_global_variable` (context.rs,
outside this excerpt) — the same binding insertion rule: overwrite in
place when present, allocate-store-insert when absent. -/
def add_or_update_global_variable (s : Scope) (name : String) (v : GValue) : Scope :=
  let res := store_variable s name v
  if res.2 then res.1
  else
    let alloc := new_global_kcl_value_ptr s
    let s1 := build_store alloc.1 alloc.2 v
    add_variable s1 name alloc.2

mutual

/-- The per-statement step of module.rs `emit_global_vars`:
single-name Unification and Assignment targets get a placeholder,
Conditional bodies and else-bodies are recursed into, everything else
(including schema and rule definitions) is skipped. -/
def emit_global_vars_stmt (s : Scope) : Stmt → Scope
  | Stmt.unification target =>
    match target.names with
    | [n] => add_or_update_global_variable s n undefined_value
    | _ => s
  | Stmt.assign targets =>
    targets.foldl
      (fun acc t =>
        match t.names with
        | [n] => add_or_update_global_variable acc n undefined_value
        | _ => acc) s
  | Stmt.ifStmt body orelse => emit_global_vars (emit_global_vars s body) orelse
  | _ => s

/-- From module.rs `emit_global_vars` (the body of
`predefine_global_vars`): fold the per-statement step over a statement
list. -/
def emit_global_vars (s : Scope) : List Stmt → Scope
  | [] => s
  | stmt :: rest => emit_global_vars (emit_global_vars_stmt s stmt) rest

end

mutual

/-- The names the spec says one statement contributes to the
global-variable scan: "single-name Assignment targets, single-name
Unification targets, and (recursively) the same targets inside
Conditional bodies and else-bodies", everything else skipped.  This is
the claim-side characterization against which `emit_global_vars` is
checked. -/
def stmtVarTargets : Stmt → List String
  | Stmt.unification target =>
    match target.names with
    | [n] => [n]
    | _ => []
  | Stmt.assign targets =>
    targets.foldr
      (fun t acc =>
        match t.names with
        | [n] => n :: acc
        | _ => acc) []
  | Stmt.ifStmt body orelse => specGlobalVarTargets body ++ specGlobalVarTargets orelse
  | _ => []

/-- Claim-side: all names a statement list contributes to the scan. -/
def specGlobalVarTargets : List Stmt → List String
  | [] => []
  | stmt :: rest => stmtVarTargets stmt ++ specGlobalVarTargets rest

end

/-- One observable step of the orchestrator: file-context stack pushes
and pops, and the per-module calls of the three passes (the
global-variable scan, import processing, type registration plus schema
or rule body walk, and the full statement emitter).  The symbol-table
effect of the scan calls is verified separately through
`emit_global_vars` and `predefine_global_types`; here each call is one
trace event and its possible `.expect` failure a Bool oracle. -/
inductive Event where
  | push (f : String)
  | pop
  | scanVars (f : String)
  | importProc (path : String)
  | defType (name : String)
  | emitMod (f : String)
deriving Repr, DecidableEq

/-- From module.rs `compile_module_import_and_types`: walk the statement
list in order; an Import statement runs import processing, a Schema or
Rule statement predefines its global type and walks its body.  The
oracles `wi`/`ws`/`wr` say whether the corresponding external walker call
succeeds; a failing `.expect` aborts (panics) right there, so the rest of
the list is not processed. -/
def compile_module_import_and_types (wi ws wr : String → Bool) :
    List Stmt → List Event × Bool
  | [] => ([], true)
  | stmt :: rest =>
    match stmt with
    | Stmt.importStmt path =>
      if wi path then
        let r := compile_module_import_and_types wi ws wr rest
        (Event.importProc path :: r.1, r.2)
      else ([Event.importProc path], false)
    | Stmt.schema name _ =>
      if ws name then
        let r := compile_module_import_and_types wi ws wr rest
        (Event.defType name :: r.1, r.2)
      else ([Event.defType name], false)
    | Stmt.rule name =>
      if wr name then
        let r := compile_module_import_and_types wi ws wr rest
        (Event.defType name :: r.1, r.2)
      else ([Event.defType name], false)
    | _ => compile_module_import_and_types wi ws wr rest

/-- One pass of module.rs `compile_ast_modules`: for each module push its
filename, run the per-module action, and pop — where the pop statement is
only reached when the action's `.expect` calls all succeed; a panic
aborts the loop with the filename still pushed. -/
def runPass (action : AstModule → List Event × Bool) :
    List AstModule → List String → List Event → List String × List Event × Bool
  | [], stack, trace => (stack, trace, true)
  | m :: rest, stack, trace =>
    let stack1 := m.filename :: stack
    let trace1 := trace ++ [Event.push m.filename]
    let r := action m
    let trace2 := trace1 ++ r.1
    if r.2 then runPass action rest (List.tail stack1) (trace2 ++ [Event.pop])
    else (stack1, trace2, false)

/-- What a whole `compile_ast_modules` run leaves behind: the final
file-context stack, the event trace, and whether the run completed
without a panic. -/
structure CompileOutcome where
  stack : List String
  trace : List Event
  ok : Bool
deriving Repr, DecidableEq

/-- From module.rs `compile_ast_modules`: three passes over the module
list — the global-variable scan, then `compile_module_import_and_types`,
then the full walk of every module (`walk_module`, oracle `wm`).  A panic
in a pass propagates: later passes never start. -/
def compile_ast_modules (wi ws wr : String → Bool) (wm : AstModule → Bool)
    (modules : List AstModule) : CompileOutcome :=
  let p1 := runPass (fun m => ([Event.scanVars m.filename], true)) modules [] []
  let p2 := runPass (fun m => compile_module_import_and_types wi ws wr m.body)
    modules p1.1 p1.2.1
  if p2.2.2 then
    let p3 := runPass (fun m => ([Event.emitMod m.filename], wm m)) modules p2.1 p2.2.1
    ⟨p3.1, p3.2.1, p3.2.2⟩
  else ⟨p2.1, p2.2.1, false⟩

/-- Claim-side: the pass-2 per-module events the code produces on
success — imports and type registrations interleaved in statement
order. -/
def pass2Events : List Stmt → List Event
  | [] => []
  | Stmt.importStmt p :: rest => Event.importProc p :: pass2Events rest
  | Stmt.schema n _ :: rest => Event.defType n :: pass2Events rest
  | Stmt.rule n :: rest => Event.defType n :: pass2Events rest
  | _ :: rest => pass2Events rest

/-- Claim-side: the full pass-1 segment — every module visited once, each
wrapped in push/pop. -/
def pass1Trace (modules : List AstModule) : List Event :=
  (modules.map (fun m => [Event.push m.filename, Event.scanVars m.filename, Event.pop])).flatten

/-- Claim-side: the full pass-2 segment on the success path. -/
def pass2Trace (modules : List AstModule) : List Event :=
  (modules.map (fun m => Event.push m.filename :: (pass2Events m.body ++ [Event.pop]))).flatten

/-- Claim-side: the full pass-3 segment on the success path. -/
def pass3Trace (modules : List AstModule) : List Event :=
  (modules.map (fun m => [Event.push m.filename, Event.emitMod m.filename, Event.pop])).flatten

/-- The type-scan events of a statement list alone (claim-side, used to
state the claimed-but-false "type scan, then import processing" order
inside pass 2). -/
def typeScanEvents : List Stmt → List Event
  | [] => []
  | Stmt.schema n _ :: rest => Event.defType n :: typeScanEvents rest
  | Stmt.rule n :: rest => Event.defType n :: typeScanEvents rest
  | _ :: rest => typeScanEvents rest

/-- The import-processing events of a statement list alone (claim-side). -/
def importProcEvents : List Stmt → List Event
  | [] => []
  | Stmt.importStmt p :: rest => Event.importProc p :: importProcEvents rest
  | _ :: rest => importProcEvents rest

/-- The pass-2 segment the claim describes: for each module, the whole
global-type scan first, then import processing. -/
def claimPass2Trace (modules : List AstModule) : List Event :=
  (modules.map (fun m =>
    Event.push m.filename ::
      ((typeScanEvents m.body ++ importProcEvents m.body) ++ [Event.pop]))).flatten

theorem string_data_append (a b : String) : (a ++ b).data = a.data ++ b.data := by
  cases a; cases b; rfl

theorem renderDiagnostic_ne_empty (s : String) : renderDiagnostic s ≠ "" := by
  intro h
  have h2 := congrArg String.data h
  rw [renderDiagnostic, string_data_append] at h2
  simp at h2

theorem sliceBuf_length (buf : List Nat) (len : Int) (bs : List Nat)
    (h : sliceBuf buf len = some bs) : bs.length = toUsize len := by
  unfold sliceBuf at h
  split at h
  · cases h
    simp [List.length_take]
    omega
  · cases h

theorem sliceBuf_none_of_lt (buf : List Nat) (len : Int)
    (h : buf.length < toUsize len) : sliceBuf buf len = none := by
  unfold sliceBuf
  split
  · omega
  · rfl

theorem utf8Decode_cons_ne_empty (b : Nat) (rest : List Nat) (s : String)
    (h : utf8Decode (b :: rest) = some s) : s ≠ "" := by
  unfold utf8Decode at h
  simp only [List.length_cons] at h
  rw [utf8DecodeAux] at h
  cases hd : utf8DecodeOne (b :: rest) with
  | none => rw [hd] at h; cases h
  | some pr =>
    obtain ⟨c, r2⟩ := pr
    rw [hd] at h
    dsimp only at h
    cases haux : utf8DecodeAux rest.length r2 with
    | none => rw [haux] at h; cases h
    | some cs =>
      rw [haux] at h
      cases h
      intro he
      have := congrArg String.data he
      simp [String.data] at this

theorem from_yaml_stream_empty : from_yaml_stream "" = Except.error "invalid yaml document" := rfl

/-- Claim C2: for every raw result byte buffer and positive return code,
if the bytes parse as a document whose value tree has a truthy
`__kcl_PanicInfo__` key, the run yields a failure outcome: non-empty
`err_message` carrying the raw document text (in rendered diagnostic
form) and an empty `json_result`, despite the positive return code. -/
theorem c2_panic_marker_failure (n : Int) (jsonBuf warnBuf logBuf : List Nat)
    (logLen : Int) (logBytes resBytes : List Nat) (logMsg s : String)
    (v marker : KValue)
    (hn : 0 < n)
    (hlog : sliceBuf logBuf logLen = some logBytes)
    (hlogu : utf8Decode logBytes = some logMsg)
    (hres : sliceBuf jsonBuf n = some resBytes)
    (hresu : utf8Decode resBytes = some s)
    (hparse : from_yaml_stream s = Except.ok v)
    (hkey : v.get_by_key "__kcl_PanicInfo__" = some marker)
    (htruthy : marker.is_truthy = true) :
    lib_kcl_run_decode n jsonBuf warnBuf logBuf logLen =
      RunOutcome.ok { json_result := "", yaml_result := "", log_message := logMsg,
                      err_message := renderDiagnostic s } ∧
    renderDiagnostic s ≠ "" := by
  have hs : s ≠ "" := by
    intro he
    rw [he, from_yaml_stream_empty] at hparse
    cases hparse
  have hw : wrap_msg_in_result s = Except.error s := by
    unfold wrap_msg_in_result
    rw [hparse]
    dsimp only
    rw [hkey]
    dsimp only
    rw [htruthy]
    simp
  refine ⟨?_, renderDiagnostic_ne_empty s⟩
  unfold lib_kcl_run_decode
  rw [hlog]
  dsimp only
  rw [hlogu]
  dsimp only
  rw [if_pos hn, hres]
  dsimp only
  rw [hresu]
  dsimp only
  rw [hw]
  dsimp only
  rw [if_neg hs]

def panicDocText : String := "\x7b\"__kcl_PanicInfo__\": true\x7d"

/-- Witness for C2 at a concrete panic document with a positive return
code equal to its byte length. -/
theorem c2_witness :
    lib_kcl_run_decode (Int.ofNat (asciiBytes panicDocText).length)
      (asciiBytes panicDocText) [] [] 0 =
      RunOutcome.ok { json_result := "", yaml_result := "", log_message := "",
                      err_message := renderDiagnostic panicDocText } ∧
    renderDiagnostic panicDocText ≠ "" :=
  c2_panic_marker_failure (Int.ofNat (asciiBytes panicDocText).length)
    (asciiBytes panicDocText) [] [] 0 [] (asciiBytes panicDocText) "" panicDocText
    (KValue.dict [("__kcl_PanicInfo__", KValue.bool true)]) (KValue.bool true)
    (by decide) (by decide) rfl (by decide) rfl rfl rfl rfl

/-- Claim C4: for every negative return code `-n`, the decoder takes
exactly the first `n` bytes of the warning buffer as the error message,
the result strings stay empty, and the non-empty error message is
re-rendered through the diagnostic formatter before being returned. -/
theorem c4_negative_return (n : Int) (jsonBuf warnBuf logBuf : List Nat)
    (logLen : Int) (logBytes wBytes : List Nat) (logMsg e : String)
    (hn : n < 0) (hn2 : -(2 ^ 31) < n)
    (hlog : sliceBuf logBuf logLen = some logBytes)
    (hlogu : utf8Decode logBytes = some logMsg)
    (hw : sliceBuf warnBuf (0 - n) = some wBytes)
    (hwu : utf8Decode wBytes = some e) :
    lib_kcl_run_decode n jsonBuf warnBuf logBuf logLen =
      RunOutcome.ok { json_result := "", yaml_result := "", log_message := logMsg,
                      err_message := renderDiagnostic e } ∧
    wBytes = warnBuf.take (toUsize (0 - n)) := by
  have hlen := sliceBuf_length warnBuf (0 - n) wBytes hw
  have hpos : 0 < toUsize (0 - n) := by
    unfold toUsize
    rw [Int.emod_eq_of_lt (by omega) (by norm_num; omega)]
    omega
  have hne : wBytes ≠ [] := by
    intro hnil
    rw [hnil, List.length_nil] at hlen
    omega
  have he : e ≠ "" := by
    cases wBytes with
    | nil => exact absurd rfl hne
    | cons b rest => exact utf8Decode_cons_ne_empty b rest e hwu
  have htake : wBytes = warnBuf.take (toUsize (0 - n)) := by
    unfold sliceBuf at hw
    split at hw
    · exact (Option.some.inj hw).symm
    · cases hw
  refine ⟨?_, htake⟩
  unfold lib_kcl_run_decode
  rw [hlog]
  dsimp only
  rw [hlogu]
  dsimp only
  rw [if_neg (show ¬ (0 < n) by omega), if_pos hn, hw]
  dsimp only
  rw [hwu]
  dsimp only
  rw [if_neg he]

/-- Witness for C4: return code `-5` with warning bytes `boom!`. -/
theorem c4_witness :
    lib_kcl_run_decode (-5) [] (asciiBytes "boom!") [] 0 =
      RunOutcome.ok { json_result := "", yaml_result := "", log_message := "",
                      err_message := renderDiagnostic "boom!" } ∧
    asciiBytes "boom!" = (asciiBytes "boom!").take (toUsize (0 - (-5))) :=
  c4_negative_return (-5) [] (asciiBytes "boom!") [] 0 [] (asciiBytes "boom!")
    "" "boom!" (by decide) (by decide) rfl rfl (by decide) rfl

def sampleDocText : String := "\x7b\"a\": 1\x7d\n"

/-- Counterexample to claim C5: decoding the successful raw result
`\x7b"a": 1\x7d` (9 bytes, return code 9) leaves `yaml_result` EMPTY —
only `json_result` is populated by this decode step, so the claim that
"both its JSON-form and YAML-form result strings" are populated is false
on the code. -/
theorem c5_counterexample :
    lib_kcl_run_decode 9 (asciiBytes sampleDocText) [] [] 0 =
      RunOutcome.ok { json_result := sampleDocText, yaml_result := "",
                      log_message := "", err_message := "" } ∧
    sampleDocText ≠ "" := by
  constructor
  · decide
  · decide

/-- Claim C5 as amended: a successful decode (positive return code,
well-formed document, no truthy panic marker) yields an empty
`err_message` and `json_result` holding the raw document text, while
`yaml_result` is left empty by this decode step. -/
theorem c5_success_decode (n : Int) (jsonBuf warnBuf logBuf : List Nat)
    (logLen : Int) (logBytes resBytes : List Nat) (logMsg s : String) (v : KValue)
    (hn : 0 < n)
    (hlog : sliceBuf logBuf logLen = some logBytes)
    (hlogu : utf8Decode logBytes = some logMsg)
    (hres : sliceBuf jsonBuf n = some resBytes)
    (hresu : utf8Decode resBytes = some s)
    (hparse : from_yaml_stream s = Except.ok v)
    (hmk : ∀ m, v.get_by_key "__kcl_PanicInfo__" = some m → m.is_truthy = false) :
    lib_kcl_run_decode n jsonBuf warnBuf logBuf logLen =
      RunOutcome.ok { json_result := s, yaml_result := "", log_message := logMsg,
                      err_message := "" } := by
  have hwrap : wrap_msg_in_result s = Except.ok s := by
    unfold wrap_msg_in_result
    rw [hparse]
    dsimp only
    cases hk : v.get_by_key "__kcl_PanicInfo__" with
    | none => rfl
    | some m =>
      dsimp only
      rw [hmk m hk]
      simp
  unfold lib_kcl_run_decode
  rw [hlog]
  dsimp only
  rw [hlogu]
  dsimp only
  rw [if_pos hn, hres]
  dsimp only
  rw [hresu]
  dsimp only
  rw [hwrap]
  dsimp only
  rw [if_pos rfl]

/-- Witness for the amended C5 at the concrete sample document. -/
theorem c5_witness :
    lib_kcl_run_decode (Int.ofNat (asciiBytes sampleDocText).length)
      (asciiBytes sampleDocText) [] [] 0 =
      RunOutcome.ok { json_result := sampleDocText, yaml_result := "",
                      log_message := "", err_message := "" } :=
  c5_success_decode (Int.ofNat (asciiBytes sampleDocText).length)
    (asciiBytes sampleDocText) [] [] 0 [] (asciiBytes sampleDocText) ""
    sampleDocText (KValue.dict [("a", KValue.int 1)])
    (by decide) rfl rfl (by decide) rfl rfl
    (fun m hm => by
      rw [show (KValue.dict [("a", KValue.int 1)]).get_by_key "__kcl_PanicInfo__" =
        none from rfl] at hm
      cases hm)

def zerosBuf : List Nat := List.replicate RESULT_SIZE 0

theorem decode_log_oob (n : Int) (jsonBuf warnBuf logBuf : List Nat)
    (logLen : Int) (h : logBuf.length < toUsize logLen) :
    lib_kcl_run_decode n jsonBuf warnBuf logBuf logLen =
      RunOutcome.panics "range end index out of range" := by
  unfold lib_kcl_run_decode
  rw [sliceBuf_none_of_lt _ _ h]

/-- Counterexample to claim C3: with full-capacity (`RESULT_SIZE`)
buffers, a log length cell reporting `RESULT_SIZE + 1` bytes makes the
bridge PANIC at the slice bounds check instead of failing with an error
value, so "the bridge detects this and fails with an error" is false on
the code. -/
theorem c3_counterexample :
    lib_kcl_run_decode 1 zerosBuf zerosBuf zerosBuf ((RESULT_SIZE : Int) + 1) =
      RunOutcome.panics "range end index out of range" := by
  have h1 : toUsize ((RESULT_SIZE : Int) + 1) = RESULT_SIZE + 1 := by decide
  have hlt : zerosBuf.length < toUsize ((RESULT_SIZE : Int) + 1) := by
    rw [h1]
    simp only [zerosBuf, List.length_replicate]
    omega
  exact decode_log_oob 1 zerosBuf zerosBuf zerosBuf ((RESULT_SIZE : Int) + 1) hlt

/-- Claim C3 as amended: a length cell reporting more bytes than the
buffer holds is always caught by the bounds check — decoding never reads
past a channel's capacity and never returns silently truncated data —
but the failure mode is a Rust panic (aborting the call), not an error
value. -/
theorem c3_truncation_panics (n : Int) (jsonBuf warnBuf logBuf : List Nat)
    (logLen : Int) :
    (logBuf.length < toUsize logLen →
      lib_kcl_run_decode n jsonBuf warnBuf logBuf logLen =
        RunOutcome.panics "range end index out of range") ∧
    (∀ logBytes logMsg, sliceBuf logBuf logLen = some logBytes →
      utf8Decode logBytes = some logMsg → 0 < n → jsonBuf.length < toUsize n →
      lib_kcl_run_decode n jsonBuf warnBuf logBuf logLen =
        RunOutcome.panics "range end index out of range") := by
  constructor
  · intro h
    exact decode_log_oob n jsonBuf warnBuf logBuf logLen h
  · intro logBytes logMsg hlog hlogu hn hbig
    unfold lib_kcl_run_decode
    rw [hlog]
    dsimp only
    rw [hlogu]
    dsimp only
    rw [if_pos hn, sliceBuf_none_of_lt _ _ hbig]

/-- Witness for the amended C3: an empty log buffer with a length cell
reporting one byte panics. -/
theorem c3_witness :
    lib_kcl_run_decode 0 [] [] [] 1 =
      RunOutcome.panics "range end index out of range" :=
  (c3_truncation_panics 0 [] [] [] 1).1 (by decide)

/-- Claim C10: `ExecProgramArgs::from_str` returns the default
configuration (plugin_agent zero) for every empty or whitespace-only
input, and panics carrying the input text for every non-empty input the
JSON deserializer rejects. -/
theorem c10_from_str (parseJson : String → Option ExecProgramArgs) (s : String) :
    (trimIsEmpty s = true →
      ExecProgramArgs.from_str parseJson s = FromStrOutcome.ok {} ∧
      ({} : ExecProgramArgs).plugin_agent = 0) ∧
    (trimIsEmpty s = false → parseJson s = none →
      ExecProgramArgs.from_str parseJson s = FromStrOutcome.panics s) := by
  constructor
  · intro h
    refine ⟨?_, rfl⟩
    unfold ExecProgramArgs.from_str
    simp [h]
  · intro h hp
    unfold ExecProgramArgs.from_str
    simp [h, hp]

/-- Witness for C10: whitespace-only inputs — plain blanks and a lone
form feed (Unicode White_Space beyond Lean's four ASCII characters) —
yield the default configuration; a non-JSON input panics with the input
text. -/
theorem c10_witness :
    (ExecProgramArgs.from_str (fun _ => none) "  " = FromStrOutcome.ok {} ∧
      ({} : ExecProgramArgs).plugin_agent = 0) ∧
    (ExecProgramArgs.from_str (fun _ => none) "\x0C" = FromStrOutcome.ok {} ∧
      ({} : ExecProgramArgs).plugin_agent = 0) ∧
    ExecProgramArgs.from_str (fun _ => none) "nope" = FromStrOutcome.panics "nope" :=
  ⟨(c10_from_str (fun _ => none) "  ").1 (by decide),
   (c10_from_str (fun _ => none) "\x0C").1 (by decide),
   (c10_from_str (fun _ => none) "nope").2 (by decide) rfl⟩

/-- Counterexample to claim C6: `Artifact::from_path` hands the loader
its path argument UNCHANGED — for the relative path `rel.so` the loader
receives a non-canonical relative path, whose resolution differs between
working directories, so `open(path) -> Artifact` does not canonicalize
before loading. -/
theorem c6_counterexample :
    isAbsolutePath (Artifact.from_path_loadArg "rel.so") = false ∧
    canonicalizePath "/cwd1" (Artifact.from_path_loadArg "rel.so") ≠
      canonicalizePath "/cwd2" (Artifact.from_path_loadArg "rel.so") ∧
    Artifact.from_path_loadArg "rel.so" ≠ canonicalizePath "/cwd1" "rel.so" := by
  refine ⟨by decide, by decide, by decide⟩

/-- Claim C6 as amended: `KclLibRunner::run` canonicalizes the library
path before loading (an absolute working directory yields an absolute
load target), while `Artifact::from_path` passes its path to the loader
unchanged; both fail with a load error when the target is not a loadable
native library. -/
theorem c6_canonicalize (loadable : String → Bool) (cwd path : String)
    (hcwd : isAbsolutePath cwd = true) :
    isAbsolutePath (KclLibRunner.run_loadArg cwd path) = true ∧
    Artifact.from_path_loadArg path = path ∧
    (loadable path = false →
      Artifact.from_path_open loadable path =
        Except.error ("failed to load " ++ path)) ∧
    (loadable (KclLibRunner.run_loadArg cwd path) = false →
      KclLibRunner.run_open loadable cwd path =
        Except.error ("failed to load " ++ KclLibRunner.run_loadArg cwd path)) := by
  refine ⟨?_, rfl, ?_, ?_⟩
  · unfold KclLibRunner.run_loadArg canonicalizePath
    split
    · assumption
    · unfold isAbsolutePath at hcwd ⊢
      rw [string_data_append, string_data_append]
      cases hc : cwd.data with
      | nil => rw [hc] at hcwd; cases hcwd
      | cons c cs =>
        rw [hc] at hcwd
        simp only [List.cons_append]
        exact hcwd
  · intro h
    unfold Artifact.from_path_open libraryNew Artifact.from_path_loadArg
    rw [h]
    rfl
  · intro h
    unfold KclLibRunner.run_open libraryNew
    rw [h]
    rfl

/-- Witness for the amended C6 at a concrete relative path and absolute
working directory, with a loader that can load nothing. -/
theorem c6_witness :
    isAbsolutePath (KclLibRunner.run_loadArg "/w" "rel.so") = true ∧
    Artifact.from_path_loadArg "rel.so" = "rel.so" ∧
    ((fun _ => false : String → Bool) "rel.so" = false →
      Artifact.from_path_open (fun _ => false) "rel.so" =
        Except.error ("failed to load " ++ "rel.so")) ∧
    ((fun _ => false : String → Bool) (KclLibRunner.run_loadArg "/w" "rel.so") = false →
      KclLibRunner.run_open (fun _ => false) "/w" "rel.so" =
        Except.error ("failed to load " ++ KclLibRunner.run_loadArg "/w" "rel.so")) :=
  c6_canonicalize (fun _ => false) "/w" "rel.so" (by decide)

/-- Well-formedness of a scope: at most one binding per name, and every
bound storage location was allocated (is below the allocation
counter). -/
def Scope.WF (s : Scope) : Prop :=
  (s.vars.map Prod.fst).Nodup ∧ ∀ pr ∈ s.vars, pr.2 < s.nextPtr

theorem lookupAssoc_cons (k : String) (v : Nat) (l : List (String × Nat))
    (n : String) :
    lookupAssoc ((k, v) :: l) n = if k = n then some v else lookupAssoc l n := rfl

theorem lookupAssoc_eq_none (l : List (String × Nat)) (n : String) :
    lookupAssoc l n = none ↔ n ∉ l.map Prod.fst := by
  induction l with
  | nil => simp [lookupAssoc]
  | cons pr rest ih =>
    obtain ⟨k, v⟩ := pr
    by_cases hk : k = n
    · subst hk
      simp [lookupAssoc]
    · simp [lookupAssoc, hk, ih, Ne.symm hk]

theorem predefine_present (s : Scope) (name : String) (p : Nat)
    (h : lookupAssoc s.vars name = some p) :
    (predefine_global_types s name).vars = s.vars ∧
    (predefine_global_types s name).nextPtr = s.nextPtr ∧
    (predefine_global_types s name).store p = GValue.undefined ∧
    (∀ q, q ≠ p → (predefine_global_types s name).store q = s.store q) := by
  unfold predefine_global_types store_variable
  rw [h]
  dsimp only
  refine ⟨rfl, rfl, by simp [undefined_value], ?_⟩
  intro q hq
  simp [hq]

theorem predefine_absent (s : Scope) (name : String)
    (h : lookupAssoc s.vars name = none) :
    (predefine_global_types s name).vars = (name, s.nextPtr) :: s.vars ∧
    (predefine_global_types s name).nextPtr = s.nextPtr + 1 ∧
    (predefine_global_types s name).store s.nextPtr = GValue.undefined := by
  unfold predefine_global_types store_variable new_global_kcl_value_ptr build_store add_variable
  rw [h]
  dsimp only
  exact ⟨rfl, rfl, by simp [undefined_value]⟩

theorem predefine_WF (s : Scope) (name : String) (h : Scope.WF s) :
    Scope.WF (predefine_global_types s name) := by
  cases hl : lookupAssoc s.vars name with
  | some p =>
    obtain ⟨h1, h2, -, -⟩ := predefine_present s name p hl
    exact ⟨by rw [h1]; exact h.1, by rw [h1, h2]; exact h.2⟩
  | none =>
    obtain ⟨h1, h2, -⟩ := predefine_absent s name hl
    constructor
    · rw [h1]
      simp only [List.map_cons, List.nodup_cons]
      exact ⟨(lookupAssoc_eq_none s.vars name).mp hl, h.1⟩
    · rw [h1, h2]
      intro pr hpr
      rcases List.mem_cons.mp hpr with he | hm
      · rw [he]
        exact Nat.lt_succ_self _
      · exact Nat.lt_succ_of_lt (h.2 pr hm)

theorem predefine_lookup_mono (s : Scope) (m n : String) (p : Nat)
    (h : lookupAssoc s.vars n = some p) :
    lookupAssoc (predefine_global_types s m).vars n = some p := by
  cases hl : lookupAssoc s.vars m with
  | some q =>
    rw [(predefine_present s m q hl).1]
    exact h
  | none =>
    rw [(predefine_absent s m hl).1, lookupAssoc_cons]
    have hmn : m ≠ n := by
      intro he
      rw [he, h] at hl
      cases hl
    simp [hmn, h]

theorem foldl_predefine_WF (names : List String) (s : Scope) (h : Scope.WF s) :
    Scope.WF (names.foldl predefine_global_types s) := by
  induction names generalizing s with
  | nil => exact h
  | cons m rest ih => exact ih _ (predefine_WF s m h)

theorem foldl_predefine_lookup (names : List String) (s : Scope) (n : String)
    (p : Nat) (h : lookupAssoc s.vars n = some p) :
    lookupAssoc (names.foldl predefine_global_types s).vars n = some p := by
  induction names generalizing s with
  | nil => exact h
  | cons m rest ih => exact ih _ (predefine_lookup_mono s m n p h)

theorem foldl_predefine_mem (names : List String) (s : Scope) (n : String)
    (h : n ∈ names) :
    (lookupAssoc (names.foldl predefine_global_types s).vars n).isSome = true := by
  induction names generalizing s with
  | nil => cases h
  | cons m rest ih =>
    rcases List.mem_cons.mp h with he | hmem
    · subst he
      have hb : ∃ p, lookupAssoc (predefine_global_types s n).vars n = some p := by
        cases hl : lookupAssoc s.vars n with
        | some p =>
          rw [(predefine_present s n p hl).1]
          exact ⟨p, hl⟩
        | none =>
          rw [(predefine_absent s n hl).1, lookupAssoc_cons]
          exact ⟨s.nextPtr, by simp⟩
      obtain ⟨p, hp⟩ := hb
      rw [List.foldl_cons, foldl_predefine_lookup rest _ n p hp]
      rfl
    · exact ih (predefine_global_types s m) hmem

/-- Claim C7: over any sequence of placeholder registrations
(`predefine_global_types`), at most one storage location exists per name
(no duplicate bindings, and existing bindings keep their storage
location); a single registration of an absent name allocates fresh
storage holding the undefined placeholder, and of a present name leaves
the binding list untouched and overwrites only that name's storage
location. -/
theorem c7_unique_binding (s : Scope) (names : List String) (h : Scope.WF s) :
    ((names.foldl predefine_global_types s).vars.map Prod.fst).Nodup ∧
    (∀ n p, lookupAssoc s.vars n = some p →
      lookupAssoc (names.foldl predefine_global_types s).vars n = some p) ∧
    (∀ n, n ∈ names →
      (lookupAssoc (names.foldl predefine_global_types s).vars n).isSome = true) ∧
    (∀ n p, lookupAssoc s.vars n = some p →
      (predefine_global_types s n).vars = s.vars ∧
      (predefine_global_types s n).store p = GValue.undefined ∧
      ∀ q, q ≠ p → (predefine_global_types s n).store q = s.store q) ∧
    (∀ n, lookupAssoc s.vars n = none →
      (predefine_global_types s n).vars = (n, s.nextPtr) :: s.vars ∧
      (predefine_global_types s n).store s.nextPtr = GValue.undefined) :=
  ⟨(foldl_predefine_WF names s h).1,
   fun n p hp => foldl_predefine_lookup names s n p hp,
   fun n hn => foldl_predefine_mem names s n hn,
   fun n p hp => ⟨(predefine_present s n p hp).1, (predefine_present s n p hp).2.2.1,
     (predefine_present s n p hp).2.2.2⟩,
   fun n hn => ⟨(predefine_absent s n hn).1, (predefine_absent s n hn).2.2⟩⟩

/-- A concrete scope that already binds the name `T` (say, as a type). -/
def scope0 : Scope := ⟨[("T", 0)], fun _ => GValue.undefined, 1⟩

/-- Witness for C7: re-registering `T` and registering a fresh `x` over a
scope where `T` is already bound as a type. -/
theorem c7_witness :
    Scope.WF scope0 ∧
    ((["T", "x"].foldl predefine_global_types scope0).vars.map Prod.fst).Nodup ∧
    (∀ n p, lookupAssoc scope0.vars n = some p →
      lookupAssoc (["T", "x"].foldl predefine_global_types scope0).vars n = some p) ∧
    (∀ n, n ∈ ["T", "x"] →
      (lookupAssoc (["T", "x"].foldl predefine_global_types scope0).vars n).isSome = true) ∧
    (∀ n p, lookupAssoc scope0.vars n = some p →
      (predefine_global_types scope0 n).vars = scope0.vars ∧
      (predefine_global_types scope0 n).store p = GValue.undefined ∧
      ∀ q, q ≠ p → (predefine_global_types scope0 n).store q = scope0.store q) ∧
    (∀ n, lookupAssoc scope0.vars n = none →
      (predefine_global_types scope0 n).vars = (n, scope0.nextPtr) :: scope0.vars ∧
      (predefine_global_types scope0 n).store scope0.nextPtr = GValue.undefined) :=
  ⟨⟨by decide, by decide⟩,
   c7_unique_binding scope0 ["T", "x"] ⟨by decide, by decide⟩⟩

theorem add_or_update_bound_iff (s : Scope) (m n : String) (v : GValue) :
    (lookupAssoc (add_or_update_global_variable s m v).vars n).isSome = true ↔
      ((lookupAssoc s.vars n).isSome = true ∨ n = m) := by
  unfold add_or_update_global_variable store_variable new_global_kcl_value_ptr build_store add_variable
  cases hl : lookupAssoc s.vars m with
  | some p =>
    dsimp only
    rw [if_pos rfl]
    dsimp only
    constructor
    · exact Or.inl
    · intro h
      rcases h with h | rfl
      · exact h
      · rw [hl]
        rfl
  | none =>
    dsimp only
    rw [if_neg (by decide : ¬ (false = true))]
    dsimp only
    rw [lookupAssoc_cons]
    by_cases hnm : m = n
    · subst hnm
      simp
    · simp [hnm, Ne.symm hnm]

theorem assign_fold_bound_iff (targets : List Identifier) (s : Scope) (n : String) :
    (lookupAssoc ((targets.foldl
        (fun acc t =>
          match t.names with
          | [m] => add_or_update_global_variable acc m undefined_value
          | _ => acc) s)).vars n).isSome = true ↔
      ((lookupAssoc s.vars n).isSome = true ∨
        n ∈ targets.foldr
          (fun t acc =>
            match t.names with
            | [m] => m :: acc
            | _ => acc) []) := by
  induction targets generalizing s with
  | nil => simp
  | cons t rest ih =>
    rw [List.foldl_cons, List.foldr_cons]
    cases hn : t.names with
    | nil =>
      dsimp only
      exact ih s
    | cons a as =>
      cases as with
      | nil =>
        dsimp only
        rw [ih (add_or_update_global_variable s a undefined_value),
          add_or_update_bound_iff]
        simp only [List.mem_cons]
        tauto
      | cons b bs =>
        dsimp only
        exact ih s

mutual

theorem bound_emit_stmt (st : Stmt) (s : Scope) (n : String) :
    (lookupAssoc (emit_global_vars_stmt s st).vars n).isSome = true ↔
      ((lookupAssoc s.vars n).isSome = true ∨ n ∈ stmtVarTargets st) := by
  cases st with
  | unification target =>
    rw [emit_global_vars_stmt, stmtVarTargets]
    cases hn : target.names with
    | nil => simp
    | cons a as =>
      cases as with
      | nil =>
        rw [add_or_update_bound_iff]
        simp
      | cons b bs => simp
  | assign targets =>
    rw [emit_global_vars_stmt, stmtVarTargets]
    exact assign_fold_bound_iff targets s n
  | ifStmt body orelse =>
    rw [emit_global_vars_stmt, stmtVarTargets]
    rw [bound_emit orelse (emit_global_vars s body) n, bound_emit body s n]
    simp only [List.mem_append]
    tauto
  | importStmt path => simp [emit_global_vars_stmt, stmtVarTargets]
  | schema name body => simp [emit_global_vars_stmt, stmtVarTargets]
  | rule name => simp [emit_global_vars_stmt, stmtVarTargets]
  | other => simp [emit_global_vars_stmt, stmtVarTargets]

theorem bound_emit (body : List Stmt) (s : Scope) (n : String) :
    (lookupAssoc (emit_global_vars s body).vars n).isSome = true ↔
      ((lookupAssoc s.vars n).isSome = true ∨ n ∈ specGlobalVarTargets body) := by
  cases body with
  | nil => simp [emit_global_vars, specGlobalVarTargets]
  | cons st rest =>
    rw [emit_global_vars, specGlobalVarTargets]
    rw [bound_emit rest (emit_global_vars_stmt s st) n, bound_emit_stmt st s n]
    simp only [List.mem_append]
    tauto

end

/-- Claim C8: the global-variable scan binds exactly the names the spec
describes — single-name Assignment targets, single-name Unification
targets, and recursively the same inside Conditional bodies and
else-bodies (so a variable assigned only inside a branch is visible at
the enclosing scope after the scan) — while multi-name targets are
skipped and schema/rule bodies and all other statement kinds are not
recursed into: a name is bound after the scan iff it was bound before or
is in the claim-side target set `specGlobalVarTargets`. -/
theorem c8_global_var_scan (s : Scope) (body : List Stmt) (n : String) :
    (lookupAssoc (emit_global_vars s body).vars n).isSome = true ↔
      ((lookupAssoc s.vars n).isSome = true ∨ n ∈ specGlobalVarTargets body) :=
  bound_emit body s n

theorem runPass_stack (action : AstModule → List Event × Bool)
    (ms : List AstModule) (stack : List String) (trace : List Event) :
    ((runPass action ms stack trace).2.2 = true →
      (runPass action ms stack trace).1 = stack) ∧
    ((runPass action ms stack trace).2.2 = false →
      ∃ f, (runPass action ms stack trace).1 = f :: stack) := by
  induction ms generalizing stack trace with
  | nil => simp [runPass]
  | cons m rest ih =>
    rw [runPass]
    cases hr : (action m).2 with
    | true =>
      simp only [hr, if_true, List.tail_cons]
      exact ih stack _
    | false =>
      simp only [hr, Bool.false_eq_true, if_false]
      constructor
      · intro h
        cases h
      · intro _
        exact ⟨m.filename, rfl⟩

/-- The trace one pass appends on its success path. -/
def passTraceOf (action : AstModule → List Event × Bool)
    (ms : List AstModule) : List Event :=
  (ms.map (fun m => Event.push m.filename :: ((action m).1 ++ [Event.pop]))).flatten

theorem runPass_allOk (action : AstModule → List Event × Bool)
    (hall : ∀ m, (action m).2 = true) (ms : List AstModule)
    (stack : List String) (trace : List Event) :
    runPass action ms stack trace = (stack, trace ++ passTraceOf action ms, true) := by
  induction ms generalizing stack trace with
  | nil => simp [runPass, passTraceOf]
  | cons m rest ih =>
    rw [runPass]
    simp only [hall m, if_true, List.tail_cons]
    rw [ih]
    simp [passTraceOf, List.append_assoc]

theorem cmit_allOk (body : List Stmt) :
    compile_module_import_and_types (fun _ => true) (fun _ => true) (fun _ => true)
      body = (pass2Events body, true) := by
  induction body with
  | nil => rfl
  | cons st rest ih =>
    cases st <;> simp [compile_module_import_and_types, pass2Events, ih]

theorem passTraceOf_pass1 (ms : List AstModule) :
    passTraceOf (fun m => ([Event.scanVars m.filename], true)) ms = pass1Trace ms := by
  induction ms with
  | nil => rfl
  | cons m rest ih => simp [passTraceOf, pass1Trace, ih]

theorem passTraceOf_pass2 (ms : List AstModule) :
    passTraceOf
      (fun m => compile_module_import_and_types (fun _ => true) (fun _ => true)
        (fun _ => true) m.body) ms = pass2Trace ms := by
  simp only [passTraceOf, pass2Trace, cmit_allOk]

theorem passTraceOf_pass3 (ms : List AstModule) :
    passTraceOf (fun m => ([Event.emitMod m.filename], true)) ms = pass3Trace ms := by
  induction ms with
  | nil => rfl
  | cons m rest ih => simp [passTraceOf, pass3Trace, ih]

theorem compile_allOk (modules : List AstModule) :
    compile_ast_modules (fun _ => true) (fun _ => true) (fun _ => true)
      (fun _ => true) modules =
      ⟨[], pass1Trace modules ++ (pass2Trace modules ++ pass3Trace modules), true⟩ := by
  have e1 := runPass_allOk (fun m => ([Event.scanVars m.filename], true))
    (fun _ => rfl)
  have e2 := runPass_allOk
    (fun m => compile_module_import_and_types (fun _ => true) (fun _ => true)
      (fun _ => true) m.body)
    (fun m => by simp only [cmit_allOk])
  have e3 := runPass_allOk (fun m => ([Event.emitMod m.filename], true))
    (fun _ => rfl)
  simp only [compile_ast_modules, e1, e2, e3]
  simp [passTraceOf_pass1, passTraceOf_pass2, passTraceOf_pass3, List.append_assoc]

/-- A module whose first statement is an import and whose second defines
a schema type. -/
def c9Module : AstModule := ⟨"m.k", [Stmt.importStmt "pkg", Stmt.schema "A" []]⟩

/-- Counterexample to claim C9: on a module that starts with an import
and then defines a schema, pass 2 processes the import BEFORE the type
registration (statement order), so the claimed per-module order "the
global-type scan, then import processing" is false on the code: the
produced trace differs from the trace the claim describes
(`claimPass2Trace`). -/
theorem c9_counterexample :
    (compile_ast_modules (fun _ => true) (fun _ => true) (fun _ => true)
        (fun _ => true) [c9Module]).trace =
      [Event.push "m.k", Event.scanVars "m.k", Event.pop,
       Event.push "m.k", Event.importProc "pkg", Event.defType "A", Event.pop,
       Event.push "m.k", Event.emitMod "m.k", Event.pop] ∧
    (compile_ast_modules (fun _ => true) (fun _ => true) (fun _ => true)
        (fun _ => true) [c9Module]).trace ≠
      pass1Trace [c9Module] ++ (claimPass2Trace [c9Module] ++ pass3Trace [c9Module]) := by
  constructor
  · decide
  · decide

/-- Claim C9 as amended: the orchestrator performs exactly three full
passes in fixed order, never interleaved per-module — the whole trace is
the pass-1 segment over all modules, then the pass-2 segment, then the
pass-3 segment — with pass 2 processing each module's imports and type
registrations interleaved in statement order. -/
theorem c9_three_passes (modules : List AstModule) :
    (compile_ast_modules (fun _ => true) (fun _ => true) (fun _ => true)
        (fun _ => true) modules).trace =
      pass1Trace modules ++ (pass2Trace modules ++ pass3Trace modules) ∧
    (compile_ast_modules (fun _ => true) (fun _ => true) (fun _ => true)
        (fun _ => true) modules).ok = true ∧
    (compile_ast_modules (fun _ => true) (fun _ => true) (fun _ => true)
        (fun _ => true) modules).stack = [] := by
  rw [compile_allOk]
  exact ⟨rfl, rfl, rfl⟩

/-- Counterexample to claim C1: with an injected emission failure in
pass 3 (`walk_module` fails on the only module), the aborted run leaves
the module's filename on the file-context stack — the pop after the
failing `.expect` is never reached, so the stack is NOT empty on the
failure path. -/
theorem c1_counterexample :
    (compile_ast_modules (fun _ => true) (fun _ => true) (fun _ => true)
        (fun _ => false) [⟨"main.k", []⟩]).stack = ["main.k"] ∧
    (compile_ast_modules (fun _ => true) (fun _ => true) (fun _ => true)
        (fun _ => false) [⟨"main.k", []⟩]).ok = false ∧
    (compile_ast_modules (fun _ => true) (fun _ => true) (fun _ => true)
        (fun _ => false) [⟨"main.k", []⟩]).stack ≠ [] := by
  refine ⟨by decide, by decide, by decide⟩

/-- Claim C1 as amended: after a run in which every walk succeeds the
file-context stack is empty; when an emission failure aborts a pass, the
pushes of all completed modules are popped but the failing module's
filename remains, leaving the stack at depth exactly one — it is NOT
empty on the failure path. -/
theorem c1_stack_balance (wi ws wr : String → Bool) (wm : AstModule → Bool)
    (modules : List AstModule) :
    ((compile_ast_modules wi ws wr wm modules).ok = true →
      (compile_ast_modules wi ws wr wm modules).stack = []) ∧
    ((compile_ast_modules wi ws wr wm modules).ok = false →
      ∃ f, (compile_ast_modules wi ws wr wm modules).stack = [f]) := by
  have e1 := runPass_allOk (fun m => ([Event.scanVars m.filename], true))
    (fun _ => rfl) modules [] []
  have hs2 := runPass_stack (fun m => compile_module_import_and_types wi ws wr m.body)
    modules []
    ([] ++ passTraceOf (fun m => ([Event.scanVars m.filename], true)) modules)
  generalize hq : runPass (fun m => compile_module_import_and_types wi ws wr m.body)
    modules []
    ([] ++ passTraceOf (fun m => ([Event.scanVars m.filename], true)) modules) = q at hs2
  obtain ⟨qs, qtr, qok⟩ := q
  dsimp only at hs2
  unfold compile_ast_modules
  rw [e1]
  dsimp only
  rw [hq]
  dsimp only
  cases qok with
  | true =>
    have hqs : qs = [] := hs2.1 rfl
    subst hqs
    rw [if_pos rfl]
    have hs3 := runPass_stack (fun m => ([Event.emitMod m.filename], wm m))
      modules [] qtr
    generalize hq3 : runPass (fun m => ([Event.emitMod m.filename], wm m))
      modules [] qtr = q3 at hs3
    obtain ⟨q3s, q3tr, q3ok⟩ := q3
    dsimp only at hs3
    dsimp only
    cases q3ok with
    | true =>
      refine ⟨fun _ => hs3.1 rfl, fun h => ?_⟩
      cases h
    | false =>
      refine ⟨fun h => ?_, fun _ => hs3.2 rfl⟩
      cases h
  | false =>
    rw [if_neg (by decide : ¬ (false = true))]
    dsimp only
    refine ⟨fun h => ?_, fun _ => hs2.2 rfl⟩
    cases h

/-- Witness for the amended C1: an all-success run over one module ends
with an empty stack. -/
theorem c1_witness :
    (compile_ast_modules (fun _ => true) (fun _ => true) (fun _ => true)
        (fun _ => true) [⟨"main.k", []⟩]).stack = [] :=
  (c1_stack_balance (fun _ => true) (fun _ => true) (fun _ => true)
    (fun _ => true) [⟨"main.k", []⟩]).1 (by decide)
